import Mathlib

/-!
Verification of the YouTubeLM frontend against its specification.

Each section shallowly embeds one part of the TypeScript source:
* quiz scoring (`QuizDisplay.tsx` / `calculateScore`),
* citation handling (`Message.tsx` / `handleCitationClick`, `processTextWithCitations`),
* the SSE client loops (`api.ts` / `streamSSE`, the `useSSE` hook, `handleSSEEvent`),
* chat input helpers (`ChatInput.tsx` / `handleModeCycle`, `handleChapterToggle`),
* the video-player clock (`VideoPlayer/index.tsx` / `formatTime`).

JavaScript-specific semantics (truthiness of `undefined`/`''`/`0`, `Array`
negative indexing, `%` as a truncation remainder, `Math.round` as
round-half-up) are modelled explicitly where they matter.
-/

namespace YouTubeLM

/-! ### Quiz data model (`frontend/src/types/index.ts`) -/

inductive QuestionType where
  | mcq
  | open_ended
deriving DecidableEq, Repr

/-- The fields of `QuizQuestion` that scoring reads. -/
structure QuizQuestion where
  question_index : Nat
  question_type : QuestionType
deriving DecidableEq, Repr

/-- The fields of `QuizValidationResult` that scoring reads:
`is_correct` is required, `llm_score` optional. -/
structure QuizValidationResult where
  is_correct : Bool
  llm_score : Option Nat
deriving DecidableEq, Repr

/-- The `validationResults` map of the quiz store, as an association list
keyed by `question_index` (`Map.get` = first matching key). -/
def lookupResult : List (Nat × QuizValidationResult) → Nat → Option QuizValidationResult
  | [], _ => none
  | (j, r) :: rest, i => if j = i then some r else lookupResult rest i

/-- `Math.round (num / den)` for natural `num`, `den`: round half up. -/
def jsRound (num den : Nat) : Nat := (2 * num + den) / (2 * den)

/-- One question's contribution to `totalScore` inside `calculateScore`:
skipped questions (`if (!result) return`) add 0, MCQ adds 100 or 0 by
`is_correct`, otherwise `result.llm_score || 0`. -/
def questionContribution (results : List (Nat × QuizValidationResult))
    (q : QuizQuestion) : Nat :=
  match lookupResult results q.question_index with
  | none => 0
  | some r =>
    match q.question_type with
    | .mcq => if r.is_correct then 100 else 0
    | .open_ended => r.llm_score.getD 0

/-- `calculateScore` from `QuizDisplay.tsx`: `null` when there are no
validation results, else `Math.round((totalScore / maxScore) * 100)` with
`maxScore = questions.length * 100`.  (The component only calls this with a
non-empty question list; it returns earlier when `questions.length === 0`.) -/
def calculateScore (questions : List QuizQuestion)
    (results : List (Nat × QuizValidationResult)) : Option Nat :=
  if results.length = 0 then none
  else
    some (jsRound ((questions.map (questionContribution results)).sum * 100)
      (questions.length * 100))

/-- Modelled from the claim's words: the overall score is
`round(100 × totalScore / (100 × number of questions))` as exact rational
arithmetic, where an MCQ contributes 100 iff `is_correct` and an open-ended
question contributes its `llm_score` (0 when absent). -/
def specOverallScore (questions : List QuizQuestion)
    (results : List (Nat × QuizValidationResult)) : ℤ :=
  round ((100 * ((questions.map (questionContribution results)).sum : ℚ)) /
    (100 * (questions.length : ℚ)))

/-- The claim's concrete quiz: 4 MCQ questions and 1 open-ended question. -/
def exampleQuestions : List QuizQuestion :=
  [⟨0, .mcq⟩, ⟨1, .mcq⟩, ⟨2, .mcq⟩, ⟨3, .mcq⟩, ⟨4, .open_ended⟩]

/-- Validation results for `exampleQuestions`: 3 MCQ correct, 1 MCQ wrong,
the open-ended question scored 80. -/
def exampleResults : List (Nat × QuizValidationResult) :=
  [(0, ⟨true, none⟩), (1, ⟨true, none⟩), (2, ⟨true, none⟩),
   (3, ⟨false, none⟩), (4, ⟨false, some 80⟩)]

/-- `Math.round` on a nonnegative rational agrees with the natural-number
round-half-up formula `jsRound`. -/
theorem jsRound_eq_round (n d : Nat) (hd : 0 < d) :
    (jsRound n d : ℤ) = round ((n : ℚ) / (d : ℚ)) := by
  have hd' : (d : ℚ) ≠ 0 := Nat.cast_ne_zero.mpr hd.ne'
  have key : (n : ℚ) / (d : ℚ) + 1 / 2 =
      (((2 * n + d : ℕ) : ℤ) : ℚ) / ((2 * d : ℕ) : ℚ) := by
    push_cast
    field_simp
    ring
  rw [round_eq, key, Rat.floor_intCast_div_natCast, jsRound]
  push_cast [Int.ofNat_tdiv]
  rfl

theorem lookupResult_ne_nil {results : List (Nat × QuizValidationResult)} {i : Nat}
    (h : (lookupResult results i).isSome = true) : results.length ≠ 0 := by
  cases results with
  | nil => simp [lookupResult] at h
  | cons p rest => simp

/-- C1 (counterexample): on the claim's own concrete quiz — 4 MCQ questions
with 3 correct plus 1 open-ended question scored 80, i.e. 5 questions in
total — `calculateScore` returns 76 (= round(380·100/500)), not the claimed
95. -/
theorem calculateScore_example_eval :
    calculateScore exampleQuestions exampleResults = some 76 ∧
      calculateScore exampleQuestions exampleResults ≠ some 95 := by
  constructor
  · decide
  · decide

/-- C1 (amended): for every quiz with at least one question in which every
question has a stored validation result, `calculateScore` equals the exact
rational `round(100 × totalScore / (100 × number of questions))`, where an
MCQ contributes 100 iff its result's `is_correct` and an open-ended question
contributes its `llm_score` (0 when absent); it is a pure function of the
stored results.  The claim's concrete example (4 MCQ with 3 correct plus 1
open-ended scored 80) yields 76, not 95. -/
theorem calculateScore_formula :
    (∀ (questions : List QuizQuestion) (results : List (Nat × QuizValidationResult)),
      questions ≠ [] →
      (∀ q ∈ questions, (lookupResult results q.question_index).isSome = true) →
      (calculateScore questions results).map Int.ofNat =
        some (specOverallScore questions results)) ∧
    calculateScore exampleQuestions exampleResults = some 76 := by
  refine ⟨fun questions results hne hall => ?_, by decide⟩
  obtain ⟨q0, hq0⟩ := List.exists_mem_of_ne_nil questions hne
  have hres : results.length ≠ 0 := lookupResult_ne_nil (hall q0 hq0)
  have hlen : 0 < questions.length := List.length_pos.mpr hne
  rw [calculateScore, if_neg hres, Option.map_some']
  rw [specOverallScore]
  rw [Int.ofNat_eq_natCast, jsRound_eq_round _ _ (by positivity)]
  congr 1
  push_cast
  ring_nf

/-- C1 (witness for `calculateScore_formula`): the general formula applied to
the concrete five-question quiz. -/
theorem calculateScore_formula_witness :
    (calculateScore exampleQuestions exampleResults).map Int.ofNat =
      some (specOverallScore exampleQuestions exampleResults) :=
  calculateScore_formula.1 exampleQuestions exampleResults (by decide) (by decide)

/-! ### Citations (`Message.tsx`, duplicated in `VideoSummaryDisplay`) -/

/-- The fields of `SourceReference` that citation clicks read. -/
structure SourceReference where
  video_url : String
  start_time : Nat
deriving DecidableEq, Repr

/-- The observable effect of clicking a citation marker: nothing, a seek of
the embedded player (`onSeekVideo(source.start_time)`), or a
`window.open(url)`. -/
inductive ClickAction where
  | nothing
  | seek (t : Nat)
  | openUrl (u : String)
deriving DecidableEq, Repr

/-- JavaScript array subscript: `arr[i]` is `undefined` for negative `i`. -/
def jsGet (l : List SourceReference) (i : Int) : Option SourceReference :=
  if i < 0 then none else l.get? i.toNat

/-- The URL built by `handleCitationClick`:
`` `${source.video_url}&t=${source.start_time}s` ``. -/
def citationUrl (s : SourceReference) : String :=
  s.video_url ++ "&t=" ++ Nat.repr s.start_time ++ "s"

/-- `handleCitationClick` from `Message.tsx`: bail out when `sources` is
absent or `index > sources.length`, read `sources[index - 1]` (1-indexed,
`undefined` for index 0), then either seek the embedded player (when the
`onSeekVideo` callback is provided, abstracted by `hasSeek`) or open the
YouTube URL with the timestamp. -/
def handleCitationClick (index : Nat) (sources : Option (List SourceReference))
    (hasSeek : Bool) : ClickAction :=
  match sources with
  | none => .nothing
  | some srcs =>
    if srcs.length < index then .nothing
    else
      match jsGet srcs ((index : Int) - 1) with
      | none => .nothing
      | some s => if hasSeek then .seek s.start_time else .openUrl (citationUrl s)

/-- Modelled from the claim's words: the source's `video_url` with the
`start_time` appended as a `?t=` parameter. -/
def claimCitationUrl (s : SourceReference) : String :=
  s.video_url ++ "?t=" ++ Nat.repr s.start_time

/-- A concrete source for the citation counterexample. -/
def exampleSource : SourceReference := ⟨"https://youtube.com/watch?v=abc", 30⟩

/-- A rendered chunk of message text: plain text, or a clickable citation
button displaying `[n]` (the output items of `processTextWithCitations`). -/
inductive Part where
  | text (s : String)
  | citation (n : Nat)
deriving DecidableEq, Repr

/-- `parseInt` on a non-empty digit string. -/
def digitsToNat (ds : List Char) : Nat :=
  ds.foldl (fun n c => 10 * n + (c.toNat - '0'.toNat)) 0

/-- Splits off the maximal leading digit run (the greedy `\d+` of the
citation regex). -/
def takeDigits : List Char → List Char × List Char
  | [] => ([], [])
  | c :: cs =>
    if c.isDigit then
      let p := takeDigits cs
      (c :: p.1, p.2)
    else ([], c :: cs)

theorem takeDigits_length (cs : List Char) :
    (takeDigits cs).1.length + (takeDigits cs).2.length = cs.length := by
  induction cs with
  | nil => simp [takeDigits]
  | cons c cs ih =>
    by_cases h : c.isDigit
    · simp only [takeDigits, if_pos h, List.length_cons]
      omega
    · simp [takeDigits, h]

theorem takeDigits_snd_le (cs : List Char) :
    (takeDigits cs).2.length ≤ cs.length := by
  have := takeDigits_length cs
  omega

/-- Text accumulated since the last match becomes one `text` part
(`parts.push(text.slice(lastIndex, match.index))`, skipped when empty). -/
def flushText (acc : List Char) : List Part :=
  if acc.isEmpty then [] else [Part.text (String.mk acc.reverse)]

/-- The scanning loop of `processTextWithCitations`: repeatedly finds the
leftmost `/\[(\d+)\]/` match, emits the pending text and a citation part,
and resumes after the match; characters that do not begin a match are
accumulated as literal text. -/
def scanCitations : List Char → List Char → List Part
  | acc, [] => flushText acc
  | acc, c :: cs =>
    if c = '[' ∧ (takeDigits cs).1 ≠ [] ∧ (takeDigits cs).2.head? = some ']' then
      flushText acc ++
        Part.citation (digitsToNat (takeDigits cs).1) :: scanCitations [] (takeDigits cs).2.tail
    else scanCitations (c :: acc) cs
termination_by _acc cs => cs.length
decreasing_by
  · have h1 := takeDigits_snd_le cs
    simp only [List.length_cons, List.length_tail]
    omega
  · simp

/-- `processTextWithCitations` from `Message.tsx`, as the list of rendered
parts (text runs and clickable citation buttons). -/
def processTextWithCitations (text : String) : List Part :=
  scanCitations [] text.data

/-- What each part displays: a citation part `[n]` is rendered as the
literal characters `[n]` (inside a button element). -/
def renderPart : Part → String
  | .text s => s
  | .citation n => "[" ++ Nat.repr n ++ "]"

/-- C2 (counterexample): for an in-range citation without a seek callback the
code opens `video_url` with `&t=30s` appended, which is not the claimed
`?t=` parameter form (with or without the trailing `s`). -/
theorem handleCitationClick_url_counterexample :
    handleCitationClick 1 (some [exampleSource]) false =
      ClickAction.openUrl "https://youtube.com/watch?v=abc&t=30s" ∧
    "https://youtube.com/watch?v=abc&t=30s" ≠ claimCitationUrl exampleSource ∧
    "https://youtube.com/watch?v=abc&t=30s" ≠ claimCitationUrl exampleSource ++ "s" := by
  refine ⟨by decide, by decide, by decide⟩

/-- C2 (amended): for every citation marker `[n]` with `1 ≤ n ≤ L` over an
attached sources list of length `L`, the click resolves 1-based to the
source at position `n-1`: with a seek callback it seeks the embedded player
to that source's `start_time`, and without one it opens that source's
`video_url` with `&t={start_time}s` appended (a `t` query parameter joined
with `&`, not `?`). -/
theorem handleCitationClick_resolves (srcs : List SourceReference) (index : Nat)
    (h1 : 1 ≤ index) (h2 : index ≤ srcs.length) :
    handleCitationClick index (some srcs) true =
      ClickAction.seek (srcs.get ⟨index - 1, by omega⟩).start_time ∧
    handleCitationClick index (some srcs) false =
      ClickAction.openUrl ((srcs.get ⟨index - 1, by omega⟩).video_url ++ "&t=" ++
        Nat.repr (srcs.get ⟨index - 1, by omega⟩).start_time ++ "s") := by
  have hnlt : ¬ (srcs.length < index) := by omega
  have hneg : ¬ (((index : Int) - 1) < 0) := by omega
  have htn : ((index : Int) - 1).toNat = index - 1 := by omega
  have hget : srcs.get? (index - 1) = some (srcs.get ⟨index - 1, by omega⟩) :=
    List.get?_eq_get (by omega)
  simp only [handleCitationClick, jsGet, if_neg hnlt, if_neg hneg, htn, hget,
    citationUrl]
  exact ⟨rfl, rfl⟩

/-- C2 (witness for `handleCitationClick_resolves`): marker `[1]` over a
one-element sources list. -/
theorem handleCitationClick_resolves_witness :
    handleCitationClick 1 (some [exampleSource]) true =
      ClickAction.seek (([exampleSource].get ⟨0, by decide⟩).start_time) ∧
    handleCitationClick 1 (some [exampleSource]) false =
      ClickAction.openUrl (([exampleSource].get ⟨0, by decide⟩).video_url ++ "&t=" ++
        Nat.repr (([exampleSource].get ⟨0, by decide⟩).start_time) ++ "s") :=
  handleCitationClick_resolves [exampleSource] 1 (by decide) (by decide)

/-- C3: a citation marker whose index is out of range — `n` exceeding the
sources list length, or `n = 0`, which resolves to no source — triggers no
player seek and no URL navigation when activated, and the corresponding
part still displays the literal marker text `[n]`. -/
theorem handleCitationClick_out_of_range (srcs : List SourceReference) (n : Nat)
    (hasSeek : Bool) (hout : n = 0 ∨ srcs.length < n) :
    handleCitationClick n (some srcs) hasSeek = ClickAction.nothing ∧
    renderPart (Part.citation n) = "[" ++ Nat.repr n ++ "]" := by
  refine ⟨?_, rfl⟩
  rcases hout with rfl | hgt
  · cases srcs with
    | nil => simp [handleCitationClick, jsGet]
    | cons s rest => simp [handleCitationClick, jsGet]
  · simp [handleCitationClick, if_pos hgt]

/-- C3 (witness for `handleCitationClick_out_of_range`): marker `[5]` over a
one-element sources list. -/
theorem handleCitationClick_out_of_range_witness :
    handleCitationClick 5 (some [exampleSource]) true = ClickAction.nothing ∧
    renderPart (Part.citation 5) = "[" ++ Nat.repr 5 ++ "]" :=
  handleCitationClick_out_of_range [exampleSource] 5 true (Or.inr (by decide))

/-! ### SSE stream handling (`services/api.ts`, the `useSSE` hook and the
`handleSSEEvent` helper of the API hooks file) -/

/-- `VideoInfo` from `services/api.ts`. -/
structure VideoInfo where
  video_id : String
  title : String
  chapter : String
  video_url : String
  duration : String
  duration_seconds : Nat
deriving DecidableEq, Repr

/-- JavaScript `x || y` for an optional string: `undefined` and `''` are
falsy, so both fall back to `y`. -/
def jsStrOr (x : Option String) (y : String) : String :=
  match x with
  | some s => if s = "" then y else s
  | none => y

/-- JavaScript `x || null` for an optional string. -/
def jsStrOrNone (x : Option String) : Option String :=
  match x with
  | some s => if s = "" then none else some s
  | none => none

/-- The `type` union of `SSEEvent` in `services/api.ts`. -/
inductive SSEEventType where
  | token
  | sources
  | metadata
  | done
  | error
  | cached
deriving DecidableEq, Repr

/-- `SSEEvent` from `services/api.ts` (the fields `handleSSEEvent` reads). -/
structure SSEEvent where
  type : SSEEventType
  content : Option String := none
  sources : Option (List SourceReference) := none
  video_info : Option VideoInfo := none
  session_id : Option String := none
deriving DecidableEq, Repr

/-- `StreamState` from the API hooks file. -/
structure StreamState where
  isStreaming : Bool
  content : String
  sources : List SourceReference
  videoInfo : Option VideoInfo
  sessionId : Option String
  error : Option String
deriving DecidableEq, Repr

/-- The `useState` initial value shared by `useQA`, `useVideoSummary` and
`useQuiz`. -/
def initialStreamState : StreamState :=
  { isStreaming := false, content := "", sources := [], videoInfo := none,
    sessionId := none, error := none }

/-- `handleSSEEvent` from the API hooks file: one `setState` transition per
event type. -/
def handleSSEEvent (e : SSEEvent) (prev : StreamState) : StreamState :=
  match e.type with
  | .token => { prev with content := prev.content ++ jsStrOr e.content "" }
  | .sources => { prev with sources := e.sources.getD [] }
  | .metadata => { prev with videoInfo := e.video_info }
  | .done => { prev with isStreaming := false,
                         sessionId := jsStrOrNone e.session_id,
                         sources := e.sources.getD prev.sources }
  | .cached => { prev with isStreaming := false,
                           content := jsStrOr e.content "",
                           videoInfo := e.video_info }
  | .error => { prev with isStreaming := false,
                          error := some (jsStrOr e.content "Unknown error") }

/-- C5: handling a `cached` event ends streaming, replaces `content` with
exactly the event's content (empty string when absent) and `videoInfo` with
the event's `video_info`, leaving `sources`, `sessionId` and `error`
untouched — the full text arrives in this single terminal event. -/
theorem handleSSEEvent_cached_spec (prev : StreamState) (c : Option String)
    (srcs : Option (List SourceReference)) (vi : Option VideoInfo)
    (sid : Option String) :
    handleSSEEvent { type := .cached, content := c, sources := srcs,
                     video_info := vi, session_id := sid } prev =
      { prev with isStreaming := false, content := c.getD "", videoInfo := vi } := by
  have hc : jsStrOr c "" = c.getD "" := by
    cases c with
    | none => rfl
    | some s =>
      by_cases h : s = ""
      · simp [jsStrOr, h]
      · simp [jsStrOr, h]
  simp [handleSSEEvent, hc]

/-- C6 (counterexample): an `error` event whose `content` field is present
but empty sets the error message to `'Unknown error'` (JavaScript `||`
treats `''` as falsy), not to the event's content `''` as the claim
states. -/
theorem handleSSEEvent_error_empty_content :
    (handleSSEEvent { type := .error, content := some "" } initialStreamState).error =
      some "Unknown error" ∧
    (some "Unknown error" : Option String) ≠ some "" := by
  refine ⟨rfl, by decide⟩

/-- C6 (amended): handling an `error` event ends streaming and sets `error`
to the event's content when that content is present and non-empty, and to
`'Unknown error'` when the content field is absent *or empty*, while
leaving `content`, `sources`, `videoInfo` and `sessionId` unchanged. -/
theorem handleSSEEvent_error_spec (prev : StreamState) (c : Option String)
    (srcs : Option (List SourceReference)) (vi : Option VideoInfo)
    (sid : Option String) :
    (handleSSEEvent { type := .error, content := c, sources := srcs,
                      video_info := vi, session_id := sid } prev).isStreaming = false ∧
    (handleSSEEvent { type := .error, content := c, sources := srcs,
                      video_info := vi, session_id := sid } prev).content = prev.content ∧
    (handleSSEEvent { type := .error, content := c, sources := srcs,
                      video_info := vi, session_id := sid } prev).sources = prev.sources ∧
    (handleSSEEvent { type := .error, content := c, sources := srcs,
                      video_info := vi, session_id := sid } prev).videoInfo = prev.videoInfo ∧
    (handleSSEEvent { type := .error, content := c, sources := srcs,
                      video_info := vi, session_id := sid } prev).sessionId = prev.sessionId ∧
    (∀ s, c = some s → s ≠ "" →
      (handleSSEEvent { type := .error, content := c, sources := srcs,
                        video_info := vi, session_id := sid } prev).error = some s) ∧
    ((c = none ∨ c = some "") →
      (handleSSEEvent { type := .error, content := c, sources := srcs,
                        video_info := vi, session_id := sid } prev).error =
        some "Unknown error") := by
  refine ⟨rfl, rfl, rfl, rfl, rfl, ?_, ?_⟩
  · rintro s rfl hs
    simp [handleSSEEvent, jsStrOr, hs]
  · rintro (rfl | rfl)
    · rfl
    · rfl

/-- C6 (witness for `handleSSEEvent_error_spec`): a non-empty error message
is passed through verbatim. -/
theorem handleSSEEvent_error_spec_witness :
    (handleSSEEvent { type := .error, content := some "boom" }
      initialStreamState).error = some "boom" :=
  (handleSSEEvent_error_spec initialStreamState (some "boom") none none
    none).2.2.2.2.2.1 "boom" rfl (by decide)

/-- The dynamic JSON payload shape read by the `useSSE` line loop
(`parsed.type`, `parsed.content`, `parsed.progress`, `parsed.sources`,
`parsed.session_id`, `parsed.quiz_id`).  `type` is an arbitrary string;
unknown values fall through every branch. -/
structure SSEData where
  type : String
  content : Option String := none
  progress : Option Nat := none
  sources : Option (List SourceReference) := none
  session_id : Option String := none
  quiz_id : Option String := none
deriving DecidableEq, Repr

/-- `line.startsWith('data: ')` guard plus `line.slice(6)`: the payload of a
`data: ` line, `none` for any other line. -/
def lineData (line : String) : Option String :=
  match line.data with
  | 'd' :: 'a' :: 't' :: 'a' :: ':' :: ' ' :: rest => some (String.mk rest)
  | _ => none

/-- The accumulator variables of `useSSE.startStream` (`content`, `sources`,
`sessionId`, `quizId`, `progress`). -/
structure UseSSEState where
  content : String := ""
  sources : List SourceReference := []
  sessionId : Option String := none
  quizId : Option String := none
  progress : Nat := 0
deriving DecidableEq, Repr

/-- The if/else dispatch of `useSSE.startStream` on one parsed payload. -/
def useSSEStep (e : SSEData) (st : UseSSEState) : UseSSEState :=
  if e.type = "token" then { st with content := st.content ++ jsStrOr e.content "" }
  else if e.type = "progress" then { st with progress := e.progress.getD 0 }
  else if e.type = "validation" then st
  else if e.type = "sources" then { st with sources := e.sources.getD [] }
  else if e.type = "session_id" then { st with sessionId := e.session_id }
  else if e.type = "quiz_id" then { st with quizId := e.quiz_id }
  else st

/-- The `useSSE.startStream` read loop over the decoded lines.  `parse`
abstracts `JSON.parse` plus the payload cast, returning `none` when parsing
throws (the `catch` ignores the line).  A `data: [DONE]` line calls
`onDone` and returns early; reaching the end of the stream also calls
`onDone`.  The result is the accumulator state at the moment `onDone`
fires. -/
def useSSERun (parse : String → Option SSEData) :
    List String → UseSSEState → UseSSEState
  | [], st => st
  | line :: rest, st =>
    match lineData line with
    | none => useSSERun parse rest st
    | some data =>
      if data = "[DONE]" then st
      else
        match parse data with
        | none => useSSERun parse rest st
        | some e => useSSERun parse rest (useSSEStep e st)

/-- The `streamSSE` generator loop of `services/api.ts`: every `data: ` line
whose payload parses is yielded; every other line is skipped. -/
def streamSSERun (parse : String → Option SSEData) : List String → List SSEData
  | [] => []
  | line :: rest =>
    match lineData line with
    | none => streamSSERun parse rest
    | some data =>
      match parse data with
      | none => streamSSERun parse rest
      | some e => e :: streamSSERun parse rest

/-- The payloads `useSSE` actually processes: the `data: ` payloads up to
(and excluding) the first `[DONE]` sentinel. -/
def processedPayloads (lines : List String) : List String :=
  (lines.filterMap lineData).takeWhile (fun d => d ≠ "[DONE]")

/-- The content pieces of the token events among the processed payloads,
with `''` substituted for a missing content field. -/
def tokenContents (parse : String → Option SSEData) (lines : List String) :
    List String :=
  ((processedPayloads lines).filterMap parse).filterMap
    (fun e => if e.type = "token" then some (jsStrOr e.content "") else none)

/-- Concatenation of a list of strings in order. -/
def concatAll : List String → String
  | [] => ""
  | s :: rest => s ++ concatAll rest

theorem useSSEStep_content_of_ne_token {e : SSEData} (st : UseSSEState)
    (h : e.type ≠ "token") : (useSSEStep e st).content = st.content := by
  simp only [useSSEStep, if_neg h]
  split_ifs <;> rfl

theorem useSSERun_cons_noData {parse : String → Option SSEData} {line : String}
    {rest : List String} {st : UseSSEState} (h : lineData line = none) :
    useSSERun parse (line :: rest) st = useSSERun parse rest st := by
  simp [useSSERun, h]

theorem useSSERun_cons_done {parse : String → Option SSEData} {line : String}
    {rest : List String} {st : UseSSEState} (h : lineData line = some "[DONE]") :
    useSSERun parse (line :: rest) st = st := by
  simp [useSSERun, h]

theorem useSSERun_cons_badJson {parse : String → Option SSEData} {line d : String}
    {rest : List String} {st : UseSSEState} (h : lineData line = some d)
    (hd : d ≠ "[DONE]") (hp : parse d = none) :
    useSSERun parse (line :: rest) st = useSSERun parse rest st := by
  simp [useSSERun, h, hd, hp]

theorem useSSERun_cons_event {parse : String → Option SSEData} {line d : String}
    {e : SSEData} {rest : List String} {st : UseSSEState}
    (h : lineData line = some d) (hd : d ≠ "[DONE]") (hp : parse d = some e) :
    useSSERun parse (line :: rest) st = useSSERun parse rest (useSSEStep e st) := by
  simp [useSSERun, h, hd, hp]

theorem tokenContents_cons_noData {parse : String → Option SSEData} {line : String}
    {rest : List String} (h : lineData line = none) :
    tokenContents parse (line :: rest) = tokenContents parse rest := by
  simp [tokenContents, processedPayloads, List.filterMap_cons, h]

theorem tokenContents_cons_done {parse : String → Option SSEData} {line : String}
    {rest : List String} (h : lineData line = some "[DONE]") :
    tokenContents parse (line :: rest) = [] := by
  simp [tokenContents, processedPayloads, List.filterMap_cons, h,
    List.takeWhile_cons]

theorem tokenContents_cons_badJson {parse : String → Option SSEData}
    {line d : String} {rest : List String} (h : lineData line = some d)
    (hd : d ≠ "[DONE]") (hp : parse d = none) :
    tokenContents parse (line :: rest) = tokenContents parse rest := by
  simp [tokenContents, processedPayloads, List.filterMap_cons, h,
    List.takeWhile_cons, hd, hp]

theorem tokenContents_cons_token {parse : String → Option SSEData}
    {line d : String} {e : SSEData} {rest : List String}
    (h : lineData line = some d) (hd : d ≠ "[DONE]") (hp : parse d = some e)
    (ht : e.type = "token") :
    tokenContents parse (line :: rest) =
      jsStrOr e.content "" :: tokenContents parse rest := by
  simp [tokenContents, processedPayloads, List.filterMap_cons, h,
    List.takeWhile_cons, hd, hp, ht]

theorem tokenContents_cons_other {parse : String → Option SSEData}
    {line d : String} {e : SSEData} {rest : List String}
    (h : lineData line = some d) (hd : d ≠ "[DONE]") (hp : parse d = some e)
    (ht : e.type ≠ "token") :
    tokenContents parse (line :: rest) = tokenContents parse rest := by
  simp [tokenContents, processedPayloads, List.filterMap_cons, h,
    List.takeWhile_cons, hd, hp, ht]

theorem useSSERun_content_append (parse : String → Option SSEData)
    (lines : List String) (st : UseSSEState) :
    (useSSERun parse lines st).content =
      st.content ++ concatAll (tokenContents parse lines) := by
  induction lines generalizing st with
  | nil => simp [useSSERun, tokenContents, processedPayloads, concatAll]
  | cons line rest ih =>
    rcases hline : lineData line with _ | data
    · rw [useSSERun_cons_noData hline, ih, tokenContents_cons_noData hline]
    · by_cases hdone : data = "[DONE]"
      · subst hdone
        rw [useSSERun_cons_done hline, tokenContents_cons_done hline]
        simp [concatAll]
      · rcases hparse : parse data with _ | e
        · rw [useSSERun_cons_badJson hline hdone hparse, ih,
            tokenContents_cons_badJson hline hdone hparse]
        · by_cases htok : e.type = "token"
          · rw [useSSERun_cons_event hline hdone hparse, ih,
              tokenContents_cons_token hline hdone hparse htok]
            simp [useSSEStep, htok, concatAll, String.append_assoc]
          · rw [useSSERun_cons_event hline hdone hparse, ih,
              tokenContents_cons_other hline hdone hparse htok,
              useSSEStep_content_of_ne_token _ htok]

/-- C4: the content string `useSSE.startStream` passes to `onDone` — whether
`onDone` is triggered by the `[DONE]` sentinel or by the end of the stream —
is exactly the concatenation, in arrival order, of the `content` fields of
the token events processed (with `''` substituted for a missing content
field); events of every other type contribute nothing to it. -/
theorem useSSE_content_spec (parse : String → Option SSEData)
    (lines : List String) :
    (useSSERun parse lines {}).content = concatAll (tokenContents parse lines) := by
  rw [useSSERun_content_append]
  rfl

theorem streamSSERun_eq_filterMap (parse : String → Option SSEData)
    (lines : List String) :
    streamSSERun parse lines =
      lines.filterMap (fun l => (lineData l).bind parse) := by
  induction lines with
  | nil => simp [streamSSERun]
  | cons line rest ih =>
    rcases hline : lineData line with _ | data
    · simp [streamSSERun, hline, List.filterMap_cons, ih]
    · rcases hparse : parse data with _ | e
      · simp [streamSSERun, hline, hparse, List.filterMap_cons, ih]
      · simp [streamSSERun, hline, hparse, List.filterMap_cons, ih]

theorem useSSERun_skip_invariant (parse : String → Option SSEData)
    (pre post : List String) (bad : String) (st : UseSSEState)
    (h : lineData bad = none ∨
      ∃ d, lineData bad = some d ∧ d ≠ "[DONE]" ∧ parse d = none) :
    useSSERun parse (pre ++ bad :: post) st = useSSERun parse (pre ++ post) st := by
  induction pre generalizing st with
  | nil =>
    rcases h with hn | ⟨d, hd, hne, hp⟩
    · simpa using useSSERun_cons_noData hn
    · simpa using useSSERun_cons_badJson hd hne hp
  | cons p pre ih =>
    simp only [List.cons_append]
    rcases hline : lineData p with _ | data
    · rw [useSSERun_cons_noData hline, useSSERun_cons_noData hline]
      exact ih st
    · by_cases hdone : data = "[DONE]"
      · subst hdone
        rw [useSSERun_cons_done hline, useSSERun_cons_done hline]
      · rcases hparse : parse data with _ | e
        · rw [useSSERun_cons_badJson hline hdone hparse,
            useSSERun_cons_badJson hline hdone hparse]
          exact ih st
        · rw [useSSERun_cons_event hline hdone hparse,
            useSSERun_cons_event hline hdone hparse]
          exact ih _

/-- A concrete JSON payload for a token event carrying the content `hi`
(`\x7b` and `\x7d` are the braces). -/
def tokenPayload : String := "\x7b\"type\": \"token\", \"content\": \"hi\"\x7d"

/-- A model of `JSON.parse` plus the payload cast that recognises exactly
`tokenPayload`; every other payload — in particular the sentinel string
`[DONE]`, which is not valid JSON — fails to parse. -/
def parse0 : String → Option SSEData :=
  fun s =>
    if s = tokenPayload then some { type := "token", content := some "hi" }
    else none

/-- C7 (counterexample): in `useSSE.startStream` a `data: ` line with the
payload `[DONE]` — which fails to parse as JSON (`parse0 "[DONE]" = none`) —
is *not* skipped: it terminates the stream, so a token event arriving after
it is dropped, whereas skipping the line (as the claim states) would have
delivered that token's content `hi`. -/
theorem useSSE_done_sentinel_not_skipped :
    parse0 "[DONE]" = none ∧
    (useSSERun parse0 ["data: [DONE]", "data: " ++ tokenPayload] {}).content = "" ∧
    (useSSERun parse0 ["data: " ++ tokenPayload] {}).content = "hi" ∧
    useSSERun parse0 ["data: [DONE]", "data: " ++ tokenPayload] {} ≠
      useSSERun parse0 ["data: " ++ tokenPayload] {} := by
  refine ⟨by decide, by decide, by decide, by decide⟩

/-- C7 (amended): both SSE parsers produce events only from `data: ` lines
whose payload parses as JSON — `streamSSE`'s events are exactly the parsed
payloads of its `data: ` lines — and any line that is not a `data: ` line,
or whose payload fails to parse as JSON, is skipped without aborting the
stream or producing an event, with one exception: in `useSSE`'s loop a
`data: ` line whose payload is exactly the sentinel `[DONE]` (not valid
JSON) is not skipped but terminates the stream by firing `onDone`. -/
theorem sse_parser_skip_spec :
    (∀ (parse : String → Option SSEData) (lines : List String),
      streamSSERun parse lines =
        lines.filterMap (fun l => (lineData l).bind parse)) ∧
    (∀ (parse : String → Option SSEData) (pre post : List String) (bad : String),
      (lineData bad).bind parse = none →
      streamSSERun parse (pre ++ bad :: post) = streamSSERun parse (pre ++ post)) ∧
    (∀ (parse : String → Option SSEData) (pre post : List String) (bad : String)
        (st : UseSSEState),
      (lineData bad = none ∨
        ∃ d, lineData bad = some d ∧ d ≠ "[DONE]" ∧ parse d = none) →
      useSSERun parse (pre ++ bad :: post) st = useSSERun parse (pre ++ post) st) := by
  refine ⟨streamSSERun_eq_filterMap, ?_, useSSERun_skip_invariant⟩
  intro parse pre post bad h
  rw [streamSSERun_eq_filterMap, streamSSERun_eq_filterMap]
  simp [List.filterMap_append, List.filterMap_cons, h]

/-- C7 (witness for `sse_parser_skip_spec`): `streamSSE` skips a non-JSON
`data: ` line and `useSSE` skips a non-`data: ` line. -/
theorem sse_parser_skip_spec_witness :
    streamSSERun parse0 ([] ++ "data: [DONE]" :: []) = streamSSERun parse0 ([] ++ []) ∧
    useSSERun parse0 ([] ++ "event: ping" :: ["data: " ++ tokenPayload]) {} =
      useSSERun parse0 ([] ++ ["data: " ++ tokenPayload]) {} :=
  ⟨sse_parser_skip_spec.2.1 parse0 [] [] "data: [DONE]" (by decide),
   sse_parser_skip_spec.2.2 parse0 [] ["data: " ++ tokenPayload] "event: ping" {}
     (Or.inl (by decide))⟩

/-! ### Chat input helpers (`ChatInput.tsx`) -/

/-- The ordered mode list used by `handleModeCycle`
(`['qa', 'video_summary', 'quiz']`). -/
def taskModes : List String := ["qa", "video_summary", "quiz"]

/-- `Array.prototype.indexOf`: the first index of `x`, or −1. -/
def jsIndexOf : List String → String → Int
  | [], _ => -1
  | y :: ys, x =>
    if y = x then 0
    else
      let r := jsIndexOf ys x
      if r < 0 then -1 else r + 1

/-- `handleModeCycle` from `ChatInput.tsx`: find the current mode's index
(default 0 when not found), advance by one modulo the list length, and
select that mode.  (`modes[nextIndex]` is always in range; the `getD`
default is never used.) -/
def handleModeCycle (currentMode : String) : String :=
  let currentIndex := jsIndexOf taskModes currentMode
  let nextIndex : Nat :=
    if 0 ≤ currentIndex then (currentIndex.toNat + 1) % taskModes.length else 0
  taskModes.getD nextIndex "qa"

/-- C8: `handleModeCycle` advances cyclically through
`qa → video_summary → quiz → qa`, so three applications are the identity on
the mode list, and any value outside the list is sent to `qa`. -/
theorem handleModeCycle_spec :
    (∀ m ∈ taskModes, handleModeCycle (handleModeCycle (handleModeCycle m)) = m) ∧
    (handleModeCycle "qa" = "video_summary" ∧
      handleModeCycle "video_summary" = "quiz" ∧
      handleModeCycle "quiz" = "qa") ∧
    (∀ m, m ∉ taskModes → handleModeCycle m = "qa") := by
  refine ⟨?_, ⟨by decide, by decide, by decide⟩, ?_⟩
  · intro m hm
    simp only [taskModes, List.mem_cons, List.not_mem_nil, or_false] at hm
    rcases hm with rfl | rfl | rfl
    · decide
    · decide
    · decide
  · intro m hm
    simp only [taskModes, List.mem_cons, List.not_mem_nil, or_false, not_or] at hm
    obtain ⟨h1, h2, h3⟩ := hm
    simp [handleModeCycle, jsIndexOf, taskModes, Ne.symm h1, Ne.symm h2, Ne.symm h3]

/-- C8 (witness for `handleModeCycle_spec`): cycling three times from `qa`
returns `qa`, and an unknown mode string is sent to `qa`. -/
theorem handleModeCycle_spec_witness :
    handleModeCycle (handleModeCycle (handleModeCycle "qa")) = "qa" ∧
    handleModeCycle "summary" = "qa" :=
  ⟨handleModeCycle_spec.1 "qa" (by decide),
   handleModeCycle_spec.2.2 "summary" (by decide)⟩

/-- `handleChapterToggle` from `ChatInput.tsx`: remove the chapter when the
selection `includes` it (`filter(c => c !== chapter)`), append it at the end
otherwise (`[...selectedChapters, chapter]`). -/
def handleChapterToggle (selected : List String) (chapter : String) : List String :=
  if chapter ∈ selected then selected.filter (· ≠ chapter)
  else selected ++ [chapter]

theorem filter_ne_append_perm (l : List String) (a : String) (hnd : l.Nodup)
    (hmem : a ∈ l) : (l.filter (· ≠ a) ++ [a]).Perm l := by
  induction l with
  | nil => cases hmem
  | cons b l ih =>
    rcases List.mem_cons.mp hmem with rfl | hmem'
    · have hbl : a ∉ l := (List.nodup_cons.mp hnd).1
      have hself : l.filter (fun x => decide (x ≠ a)) = l :=
        List.filter_eq_self.mpr (fun x hx => decide_eq_true (fun hxa => hbl (hxa ▸ hx)))
      rw [List.filter_cons_of_neg (by simp), hself]
      exact List.perm_append_singleton a l
    · have hnd' := (List.nodup_cons.mp hnd).2
      have hba : b ≠ a := fun h => (List.nodup_cons.mp hnd).1 (h ▸ hmem')
      rw [List.filter_cons_of_pos (by simpa using hba), List.cons_append]
      exact List.Perm.cons b (ih hnd' hmem')

/-- C9: toggling removes a present chapter and appends an absent one; for
every selection, toggling the same chapter twice yields a list containing
exactly the original chapters, preserving the relative order of all other
chapters, and on duplicate-free selections (the invariant the checkbox UI
maintains) the double toggle is a permutation of the original. -/
theorem handleChapterToggle_involution (selected : List String) (chapter : String) :
    (chapter ∈ selected →
      handleChapterToggle selected chapter = selected.filter (· ≠ chapter)) ∧
    (chapter ∉ selected →
      handleChapterToggle selected chapter = selected ++ [chapter]) ∧
    (∀ x, x ∈ handleChapterToggle (handleChapterToggle selected chapter) chapter ↔
      x ∈ selected) ∧
    (handleChapterToggle (handleChapterToggle selected chapter) chapter).filter
        (· ≠ chapter) = selected.filter (· ≠ chapter) ∧
    (selected.Nodup →
      (handleChapterToggle (handleChapterToggle selected chapter) chapter).Perm
        selected) := by
  by_cases hmem : chapter ∈ selected
  · have h1 : handleChapterToggle selected chapter = selected.filter (· ≠ chapter) := by
      simp [handleChapterToggle, hmem]
    have hnotin : chapter ∉ selected.filter (· ≠ chapter) := by
      simp [List.mem_filter]
    have h2 : handleChapterToggle (handleChapterToggle selected chapter) chapter =
        selected.filter (· ≠ chapter) ++ [chapter] := by
      rw [h1, handleChapterToggle, if_neg hnotin]
    refine ⟨fun _ => h1, fun h => absurd hmem h, ?_, ?_, ?_⟩
    · intro x
      rw [h2]
      simp only [List.mem_append, List.mem_filter, List.mem_singleton]
      constructor
      · rintro (⟨hx, _⟩ | rfl)
        · exact hx
        · exact hmem
      · intro hx
        by_cases hxc : x = chapter
        · exact Or.inr hxc
        · exact Or.inl ⟨hx, by simpa using hxc⟩
    · rw [h2, List.filter_append]
      simp [List.filter_filter]
    · intro hnd
      rw [h2]
      exact filter_ne_append_perm selected chapter hnd hmem
  · have h1 : handleChapterToggle selected chapter = selected ++ [chapter] := by
      simp [handleChapterToggle, hmem]
    have hin : chapter ∈ selected ++ [chapter] := by simp
    have hfil : (selected ++ [chapter]).filter (· ≠ chapter) = selected := by
      rw [List.filter_append]
      have hself : selected.filter (fun x => decide (x ≠ chapter)) = selected :=
        List.filter_eq_self.mpr (fun x hx => decide_eq_true (fun h => hmem (h ▸ hx)))
      have hsingle : [chapter].filter (fun x => decide (x ≠ chapter)) = [] := by simp
      rw [hself, hsingle, List.append_nil]
    have h2 : handleChapterToggle (handleChapterToggle selected chapter) chapter =
        selected := by
      rw [h1, handleChapterToggle, if_pos hin, hfil]
    refine ⟨fun h => absurd h hmem, fun _ => h1, ?_, ?_, fun _ => by rw [h2]⟩
    · intro x
      rw [h2]
    · rw [h2]

/-- C9 (witness for `handleChapterToggle_involution`): double-toggling a
present chapter over a concrete duplicate-free selection permutes it. -/
theorem handleChapterToggle_involution_witness :
    (handleChapterToggle (handleChapterToggle ["a", "b"] "a") "a").Perm
      ["a", "b"] :=
  (handleChapterToggle_involution ["a", "b"] "a").2.2.2.2 (by decide)

/-! ### Video player clock (`VideoPlayer/index.tsx`) -/

/-- A JavaScript number as consumed by `formatTime`: NaN, ±Infinity, or a
finite value (modelled as an exact rational — video timestamps are exactly
representable at this granularity). -/
inductive JSNumber where
  | nan
  | posInf
  | negInf
  | fin (q : ℚ)
deriving DecidableEq, Repr

/-- JavaScript truncation toward zero, as used by the `%` operator. -/
def jsTrunc (q : ℚ) : ℤ := if 0 ≤ q then ⌊q⌋ else ⌈q⌉

/-- JavaScript remainder `a % b` for finite operands:
`a - b * trunc(a / b)`, which carries the sign of the dividend. -/
def jsRem (a b : ℚ) : ℚ := a - b * jsTrunc (a / b)

/-- `String.prototype.padStart(n, c)`. -/
def padStart (s : String) (n : Nat) (c : Char) : String :=
  String.mk (List.replicate (n - s.length) c) ++ s

/-- `formatTime` from `VideoPlayer/index.tsx`: `'00:00'` for NaN and
non-finite input, else `Math.floor(seconds / 60)` and
`Math.floor(seconds % 60)` each converted with `toString` and
`padStart(2, '0')`, joined by `:`. -/
def formatTime : JSNumber → String
  | .nan => "00:00"
  | .posInf => "00:00"
  | .negInf => "00:00"
  | .fin q =>
    padStart (toString ⌊q / 60⌋) 2 '0' ++ ":" ++
      padStart (toString ⌊jsRem q 60⌋) 2 '0'

/-- Modelled from the claim's words: `mm:ss` where `mm` is `floor(s / 60)`
zero-padded to at least 2 digits and `ss` is `floor(s mod 60)` zero-padded
to exactly 2 digits, reading `mod` as the mathematical (nonnegative)
remainder `s - 60·floor(s / 60)`. -/
def specFormatTime (q : ℚ) : String :=
  padStart (toString ⌊q / 60⌋) 2 '0' ++ ":" ++
    padStart (toString ⌊q - 60 * ⌊q / 60⌋⌋) 2 '0'

theorem padStart_length (s : String) (n : Nat) (c : Char) :
    (padStart s n c).length = max n s.length := by
  simp only [padStart, String.length_append, String.length_mk,
    List.length_replicate]
  omega

/-- C10 (counterexample): on the finite negative input −61 the code returns
`-2:-1` (JavaScript `%` keeps the dividend's sign, and `padStart` does not
zero-pad the signed strings), while the claimed `mm:ss` shape with
`ss = floor(s mod 60)` zero-padded to exactly two digits would give
`-2:59`. -/
theorem formatTime_negative_counterexample :
    formatTime (.fin (-61)) = "-2:-1" ∧
    specFormatTime (-61) = "-2:59" ∧
    ("-2:-1" : String) ≠ "-2:59" := by
  have hfloor : ⌊(-61 : ℚ) / 60⌋ = -2 := by
    rw [Int.floor_eq_iff]
    constructor
    · norm_num
    · norm_num
  have hceil : ⌈(-61 : ℚ) / 60⌉ = -1 := by
    rw [Int.ceil_eq_iff]
    constructor
    · norm_num
    · norm_num
  have htrunc : jsTrunc ((-61 : ℚ) / 60) = -1 := by
    rw [jsTrunc, if_neg (by norm_num), hceil]
  have hremfloor : ⌊jsRem (-61 : ℚ) 60⌋ = -1 := by
    rw [jsRem, htrunc]
    norm_num
  have hspecrem : ⌊(-61 : ℚ) - 60 * ((-2 : ℤ) : ℚ)⌋ = 59 := by
    push_cast
    norm_num
  refine ⟨?_, ?_, by decide⟩
  · simp only [formatTime, hfloor, hremfloor]
    decide
  · simp only [specFormatTime, hfloor, hspecrem]
    decide

/-- C10 (amended): `formatTime` is total: NaN and the two infinities map to
`'00:00'`, and every finite nonnegative input `s` is rendered as `mm:ss`
with `mm = floor(s/60)` zero-padded to at least 2 characters and
`ss = floor(s mod 60)` (`mod` = the nonnegative remainder, which here
coincides with JavaScript `%`) in `0..59`, zero-padded to exactly 2
characters.  For finite negative inputs the claimed shape fails (see the
counterexample): the components come out signed and unpadded. -/
theorem formatTime_spec :
    formatTime .nan = "00:00" ∧
    formatTime .posInf = "00:00" ∧
    formatTime .negInf = "00:00" ∧
    (∀ q : ℚ, 0 ≤ q →
      formatTime (.fin q) = specFormatTime q ∧
      0 ≤ ⌊q - 60 * (⌊q / 60⌋ : ℚ)⌋ ∧
      ⌊q - 60 * (⌊q / 60⌋ : ℚ)⌋ < 60 ∧
      (padStart (toString ⌊q - 60 * (⌊q / 60⌋ : ℚ)⌋) 2 '0').length = 2 ∧
      2 ≤ (padStart (toString ⌊q / 60⌋) 2 '0').length) := by
  refine ⟨rfl, rfl, rfl, ?_⟩
  intro q hq
  have hq60 : (0 : ℚ) ≤ q / 60 := by positivity
  have htr : jsTrunc (q / 60) = ⌊q / 60⌋ := by rw [jsTrunc, if_pos hq60]
  have hrem : jsRem q 60 = q - 60 * (⌊q / 60⌋ : ℚ) := by rw [jsRem, htr]
  have hfle : ((⌊q / 60⌋ : ℚ)) ≤ q / 60 := Int.floor_le _
  have hflt : q / 60 < (⌊q / 60⌋ : ℚ) + 1 := Int.lt_floor_add_one _
  have hlow : (60 : ℚ) * (⌊q / 60⌋ : ℚ) ≤ q := by
    have h := mul_le_mul_of_nonneg_left hfle (by norm_num : (0 : ℚ) ≤ 60)
    calc (60 : ℚ) * (⌊q / 60⌋ : ℚ) ≤ 60 * (q / 60) := h
      _ = q := by ring
  have hhigh : q < 60 * (⌊q / 60⌋ : ℚ) + 60 := by
    have h := mul_lt_mul_of_pos_left hflt (by norm_num : (0 : ℚ) < 60)
    calc q = 60 * (q / 60) := by ring
      _ < 60 * ((⌊q / 60⌋ : ℚ) + 1) := h
      _ = 60 * (⌊q / 60⌋ : ℚ) + 60 := by ring
  have h0 : 0 ≤ ⌊q - 60 * (⌊q / 60⌋ : ℚ)⌋ := Int.floor_nonneg.mpr (by linarith)
  have h60 : ⌊q - 60 * (⌊q / 60⌋ : ℚ)⌋ < 60 := Int.floor_lt.mpr (by
    push_cast
    linarith)
  refine ⟨?_, h0, h60, ?_, ?_⟩
  · simp only [formatTime, specFormatTime, hrem]
  · rw [padStart_length]
    obtain ⟨n, hn⟩ : ∃ n : ℕ, ⌊q - 60 * (⌊q / 60⌋ : ℚ)⌋ = (n : ℤ) :=
      ⟨(⌊q - 60 * (⌊q / 60⌋ : ℚ)⌋).toNat, (Int.toNat_of_nonneg h0).symm⟩
    have hn60 : n < 60 := by
      rw [hn] at h60
      exact_mod_cast h60
    rw [hn]
    have hrepr : toString ((n : ℕ) : ℤ) = Nat.repr n := rfl
    rw [hrepr]
    interval_cases n <;> rfl
  · rw [padStart_length]
    omega

/-- C10 (witness for `formatTime_spec`): the nonnegative-input clause at
`s = 125` (which renders as `02:05`). -/
theorem formatTime_spec_witness :
    formatTime (.fin 125) = specFormatTime 125 :=
  (formatTime_spec.2.2.2 125 (by norm_num)).1

end YouTubeLM
